import Mathlib

/-!
Shallow embedding of the pipeline in src/src/main.rs (a PDF to searchable-PDF
converter: render each page to a PNG, write a manifest of image paths, then
invoke the external tesseract executable on the manifest).

The whole program is the function main.  External collaborators (filesystem,
pdfium rendering engine, the image crate, the tempfile crate, the tesseract
process) are modelled by an environment record Env describing how each
external call would respond; the embedding run : Env -> RunResult replays
main against that environment, recording every externally visible effect in
an ordered trace of events and returning the final outcome.
-/

namespace PdfOcr

/-- Decimal rendering of a page number zero-padded to a minimum width of 4,
mirroring the Rust format specifier used at src/src/main.rs line 69
(format with 04 applied to index + 1). -/
def rustPad4 (n : Nat) : String :=
  let s := Nat.repr n
  if s.length < 4 then String.mk (List.replicate (4 - s.length) '0' ++ s.data) else s

/-- File name of the image artifact for 1-based page number n
(src/src/main.rs line 69). -/
def pageFileName (n : Nat) : String :=
  "page_" ++ rustPad4 n ++ ".png"

/-- Full path of the image artifact for 1-based page number n inside the
workspace directory (temp_dir_path.join at src/src/main.rs line 69). -/
def imagePath (dir : String) (n : Nat) : String :=
  dir ++ "/" ++ pageFileName n

/-- Path of the manifest file (src/src/main.rs line 96). -/
def manifestPath (dir : String) : String :=
  dir ++ "/" ++ "images.txt"

/-- Text content of the manifest file: each path followed by one newline,
as produced by the writeln loop at src/src/main.rs lines 98-100. -/
def manifestText : List String → String
  | [] => ""
  | p :: ps => p ++ "\n" ++ manifestText ps

/-- A loaded PDF document, exposing its page count
(src/src/main.rs lines 50-51). -/
structure PdfDocument where
  pageCount : Nat
  deriving DecidableEq, Repr

/-- A source page, with the size pdfium reports for it.  The pipeline never
inspects these numbers: rendering forces a fixed target size. -/
structure PdfPage where
  srcWidth : Nat
  srcHeight : Nat
  deriving DecidableEq, Repr

/-- An in-memory raster image: width, height and channel count. -/
structure RasterImage where
  width : Nat
  height : Nat
  channels : Nat
  deriving DecidableEq, Repr

/-- The render configuration built at src/src/main.rs lines 62-64:
target width 2480 and target height 3508. -/
structure PdfRenderConfig where
  targetWidth : Option Nat
  targetHeight : Option Nat
  deriving DecidableEq, Repr

/-- The configuration main passes to render_with_config
(src/src/main.rs lines 62-64). -/
def mainRenderConfig : PdfRenderConfig :=
  { targetWidth := some 2480, targetHeight := some 3508 }

/-- Modelled from the spec: the external pdfium rendering collaborator is not
part of this repository; per the spec it renders the page to the fixed target
raster given by the configuration, regardless of the source page size or
orientation, producing a bitmap that still carries an alpha channel before
conversion. -/
def renderWithConfig (page : PdfPage) (cfg : PdfRenderConfig) : RasterImage :=
  { width := cfg.targetWidth.getD page.srcWidth,
    height := cfg.targetHeight.getD page.srcHeight,
    channels := 4 }

/-- Conversion to_rgb8 from the image crate (src/src/main.rs line 66):
drops alpha, keeping a 3-channel RGB image of the same dimensions. -/
def toRgb8 (img : RasterImage) : RasterImage :=
  { img with channels := 3 }

/-- The image artifact the pipeline produces for one page
(src/src/main.rs lines 61-66). -/
def renderedPageImage (page : PdfPage) : RasterImage :=
  toRgb8 (renderWithConfig page mainRenderConfig)

/-- The two locations main tries when binding the rendering engine
(src/src/main.rs lines 44-46). -/
inductive BindTarget where
  | localLib
  | systemLib
  deriving DecidableEq, Repr

/-- Externally visible effects of one pipeline run, in order. -/
inductive Event where
  | createWorkspace
  | bindAttempt (target : BindTarget) (ok : Bool)
  | loadDocument
  | writeImage (path : String) (img : RasterImage)
  | writeManifest (path : String) (lines : List String)
  | invokeOcr (exe : String) (args : List String)
  | removeWorkspace
  deriving DecidableEq, Repr

/-- The failure cases of main, one per early-return site in
src/src/main.rs. -/
inductive PipelineError where
  | inputNotFound (path : String)
  | workspaceCreationFailed
  | renderingEngineUnavailable
  | documentLoadFailed
  | pageProcessingFailed (pageIndex : Nat)
  | manifestWriteFailed
  | ocrSpawnFailed
  | ocrNonZeroExit
  deriving DecidableEq, Repr

/-- Error text fixed by the source, where the source fixes it:
the anyhow message or context string attached at the corresponding return
site of src/src/main.rs (lines 36, 40, 107, 109).  Errors that merely
propagate a collaborator error, whose text the source does not determine,
map to none. -/
def sourceMessage : PipelineError → Option String
  | PipelineError.inputNotFound p =>
      some ("Input file \x27" ++ p ++ "\x27 does not exist.")
  | PipelineError.workspaceCreationFailed =>
      some "Failed to create temporary directory"
  | PipelineError.ocrSpawnFailed =>
      some "Failed to run tesseract"
  | PipelineError.ocrNonZeroExit =>
      some "Tesseract OCR failed"
  | _ => none

/-- Final outcome of one run of main. -/
inductive Outcome where
  | success
  | failure (e : PipelineError)
  deriving DecidableEq, Repr

/-- Trace of effects plus final outcome. -/
structure RunResult where
  trace : List Event
  outcome : Outcome
  deriving DecidableEq, Repr

/-- Environment a run executes against: the parsed arguments plus how every
external collaborator responds.  Page indices in renderOk and encodeOk are
0-based loop indices, as in the enumerate loop of src/src/main.rs line 57. -/
structure Env where
  input : String
  output : String
  lang : String
  inputExists : Bool
  workspaceOk : Bool
  workdir : String
  bindLocalOk : Bool
  bindSystemOk : Bool
  loaded : Option PdfDocument
  pageAt : Nat → PdfPage
  renderOk : Nat → Bool
  encodeOk : Nat → Bool
  manifestOk : Bool
  ocrSpawnOk : Bool
  ocrExitCode : Nat

/-- Whether processing of 0-based page i succeeds: the render call at
src/src/main.rs line 61 and the encode-and-write block at lines 70-85 must
both succeed. -/
def Env.pageOk (env : Env) (i : Nat) : Bool :=
  env.renderOk i && env.encodeOk i

/-- Bind attempts performed by lines 44-46 of src/src/main.rs: the local
library first; the system library only when the local attempt fails
(or_else). -/
def bindEvents (env : Env) : List Event :=
  if env.bindLocalOk then
    [Event.bindAttempt BindTarget.localLib true]
  else
    [Event.bindAttempt BindTarget.localLib false,
     Event.bindAttempt BindTarget.systemLib env.bindSystemOk]

/-- Whether the engine ends up bound (src/src/main.rs lines 44-46). -/
def engineBound (env : Env) : Bool :=
  env.bindLocalOk || env.bindSystemOk

/-- Argument list passed to the tesseract child process
(src/src/main.rs lines 103-106). -/
def ocrArgs (env : Env) : List String :=
  [manifestPath env.workdir, env.output, "-l", env.lang, "pdf"]

/-- The page loop of src/src/main.rs lines 57-89.  i is the 0-based index of
the next page and the second argument the number of pages still to process.
Returns the image paths pushed so far, the corresponding write events, and
the 0-based index of the first failing page, if any.  On the first failure
the loop aborts (the question-mark operators inside the loop). -/
def processPages (env : Env) (i : Nat) : Nat → List String × List Event × Option Nat
  | 0 => ([], [], none)
  | n + 1 =>
    if env.pageOk i then
      let p := imagePath env.workdir (i + 1)
      let r := processPages env (i + 1) n
      (p :: r.1, Event.writeImage p (renderedPageImage (env.pageAt i)) :: r.2.1, r.2.2)
    else ([], [], some i)

/-- Outcome of lines 107-110 of src/src/main.rs: a spawn failure surfaces
through the context call on line 107, a non-zero exit status through the
check on lines 108-110, and otherwise the run succeeds. -/
def ocrOutcome (env : Env) : Outcome :=
  if env.ocrSpawnOk = false then Outcome.failure PipelineError.ocrSpawnFailed
  else if env.ocrExitCode ≠ 0 then Outcome.failure PipelineError.ocrNonZeroExit
  else Outcome.success

/-- Lines 103-113 of src/src/main.rs: spawn tesseract and wait.  pre is the
trace so far; the workspace removal (drop of the TempDir guard) closes every
exit path. -/
def afterOcr (env : Env) (pre : List Event) : RunResult :=
  { trace := pre ++ [Event.removeWorkspace], outcome := ocrOutcome env }

/-- Lines 55-110 of src/src/main.rs, starting from a successfully loaded
document: process the pages, write the manifest, invoke tesseract. -/
def runPages (env : Env) (pre : List Event) (doc : PdfDocument) : RunResult :=
  let r := processPages env 0 doc.pageCount
  match r.2.2 with
  | some k =>
    { trace := pre ++ r.2.1 ++ [Event.removeWorkspace],
      outcome := Outcome.failure (PipelineError.pageProcessingFailed k) }
  | none =>
    if env.manifestOk = false then
      { trace := pre ++ r.2.1 ++ [Event.removeWorkspace],
        outcome := Outcome.failure PipelineError.manifestWriteFailed }
    else
      afterOcr env
        (pre ++ r.2.1 ++
          [Event.writeManifest (manifestPath env.workdir) r.1,
           Event.invokeOcr "tesseract" (ocrArgs env)])

/-- Line 50 of src/src/main.rs: load the PDF; on failure the question-mark
operator returns, dropping the workspace guard. -/
def runLoaded (env : Env) (pre : List Event) : RunResult :=
  match env.loaded with
  | none =>
    { trace := pre ++ [Event.removeWorkspace],
      outcome := Outcome.failure PipelineError.documentLoadFailed }
  | some doc => runPages env (pre ++ [Event.loadDocument]) doc

/-- Lines 40-110 of src/src/main.rs once the workspace exists: bind the
rendering engine (local first, then system), then continue; on bind failure
the question-mark operator returns, dropping the workspace guard. -/
def runWorkspace (env : Env) : RunResult :=
  let pre := Event.createWorkspace :: bindEvents env
  if engineBound env = false then
    { trace := pre ++ [Event.removeWorkspace],
      outcome := Outcome.failure PipelineError.renderingEngineUnavailable }
  else runLoaded env pre

/-- The whole of main (src/src/main.rs lines 32-113) after argument
parsing. -/
def run (env : Env) : RunResult :=
  if env.inputExists = false then
    { trace := [], outcome := Outcome.failure (PipelineError.inputNotFound env.input) }
  else if env.workspaceOk = false then
    { trace := [], outcome := Outcome.failure PipelineError.workspaceCreationFailed }
  else runWorkspace env

/-- A fully successful environment with n pages, used to instantiate
universally quantified theorems at concrete inputs. -/
def goodEnv (n : Nat) : Env :=
  { input := "in.pdf"
    output := "out.pdf"
    lang := "eng"
    inputExists := true
    workspaceOk := true
    workdir := "/tmp/t"
    bindLocalOk := true
    bindSystemOk := false
    loaded := some { pageCount := n }
    pageAt := fun _ => { srcWidth := 612, srcHeight := 792 }
    renderOk := fun _ => true
    encodeOk := fun _ => true
    manifestOk := true
    ocrSpawnOk := true
    ocrExitCode := 0 }

/-- The image paths the loop pushes when every page from 0-based index i on
succeeds, for the given number of pages. -/
def pagePathsFrom (dir : String) (i : Nat) : Nat → List String
  | 0 => []
  | n + 1 => imagePath dir (i + 1) :: pagePathsFrom dir (i + 1) n

/-- The image-write events the loop performs when every page from 0-based
index i on succeeds, for the given number of pages. -/
def pageEventsFrom (env : Env) (i : Nat) : Nat → List Event
  | 0 => []
  | n + 1 =>
    Event.writeImage (imagePath env.workdir (i + 1)) (renderedPageImage (env.pageAt i)) ::
      pageEventsFrom env (i + 1) n

/-- Whether an event is a manifest write. -/
def Event.isManifestWrite : Event → Bool
  | Event.writeManifest _ _ => true
  | _ => false

/-- Whether an event is an invocation of the OCR child process. -/
def Event.isOcrInvocation : Event → Bool
  | Event.invokeOcr _ _ => true
  | _ => false

/-- The path of an image-write event, if the event is one. -/
def Event.imageWritePath : Event → Option String
  | Event.writeImage p _ => some p
  | _ => none

/-- Split a character list at every newline: the segments between newlines,
in order, including the final segment after the last newline.  A text in
which every line is terminated by exactly one newline and nothing follows
the last newline splits into its lines followed by one empty segment. -/
def splitNl : List Char → List (List Char)
  | [] => [[]]
  | c :: cs =>
    match splitNl cs with
    | [] => [[]]
    | l :: ls => if c = '\n' then [] :: l :: ls else (c :: l) :: ls

/-- The four characters of a 0-padded 4-digit decimal numeral, computed
arithmetically. -/
def digitsChars4 (n : Nat) : List Char :=
  [Char.ofNat (48 + n / 1000 % 10), Char.ofNat (48 + n / 100 % 10),
   Char.ofNat (48 + n / 10 % 10), Char.ofNat (48 + n % 10)]

/-- The successful environment of goodEnv with the tesseract exit status
replaced. -/
def envWithExit (c : Nat) : Env :=
  { goodEnv 1 with ocrExitCode := c }

/-! Facts about decimal numerals: the characters Nat.repr produces, the
4-digit zero-padded form, and its lexicographic behavior. -/

theorem digitChar_eq : ∀ a, a < 10 → Nat.digitChar a = Char.ofNat (48 + a) := by decide

theorem digitChar_ne_nl : ∀ a, a < 10 → Nat.digitChar a ≠ '\n' := by decide

theorem charLt_of_lt : ∀ a, a < 10 → ∀ b, b < 10 → a < b →
    Char.ofNat (48 + a) < Char.ofNat (48 + b) := by decide

theorem toDigitsCore_lt10 (fuel n : Nat) (acc : List Char) (hn : n < 10) (hf : 0 < fuel) :
    Nat.toDigitsCore 10 fuel n acc = Nat.digitChar n :: acc := by
  cases fuel with
  | zero => omega
  | succ f =>
    show (if n / 10 = 0 then _ else _) = _
    rw [Nat.div_eq_of_lt hn, Nat.mod_eq_of_lt hn]
    simp

theorem toDigitsCore_step (fuel n : Nat) (acc : List Char) (hn : 10 ≤ n) (hf : 0 < fuel) :
    Nat.toDigitsCore 10 fuel n acc =
      Nat.toDigitsCore 10 (fuel - 1) (n / 10) (Nat.digitChar (n % 10) :: acc) := by
  cases fuel with
  | zero => omega
  | succ f =>
    show (if n / 10 = 0 then _ else _) = _
    have h10 : ¬ n / 10 = 0 := by omega
    simp [h10]

theorem toDigitsCore_ne_nl (fuel : Nat) : ∀ (n : Nat) (acc : List Char),
    (∀ c ∈ acc, c ≠ '\n') → ∀ c ∈ Nat.toDigitsCore 10 fuel n acc, c ≠ '\n' := by
  induction fuel with
  | zero => intro n acc hacc c hc; exact hacc c hc
  | succ f ih =>
    intro n acc hacc c hc
    replace hc : c ∈ (if n / 10 = 0 then Nat.digitChar (n % 10) :: acc
      else Nat.toDigitsCore 10 f (n / 10) (Nat.digitChar (n % 10) :: acc)) := hc
    have hd : Nat.digitChar (n % 10) ≠ '\n' := digitChar_ne_nl _ (by omega)
    by_cases h0 : n / 10 = 0
    · rw [if_pos h0] at hc
      rcases List.mem_cons.mp hc with h | h
      · rw [h]; exact hd
      · exact hacc c h
    · rw [if_neg h0] at hc
      refine ih (n / 10) (Nat.digitChar (n % 10) :: acc) ?_ c hc
      intro x hx
      rcases List.mem_cons.mp hx with h | h
      · rw [h]; exact hd
      · exact hacc x h

theorem repr_ne_nl (n : Nat) : ∀ c ∈ (Nat.repr n).data, c ≠ '\n' := by
  intro c hc
  exact toDigitsCore_ne_nl (n + 1) n [] (by simp) c hc

theorem repr_data_1 (n : Nat) (h : n < 10) : (Nat.repr n).data = [Nat.digitChar n] := by
  show (Nat.toDigitsCore 10 (n + 1) n []).asString.data = _
  rw [toDigitsCore_lt10 _ _ _ h (by omega)]
  rfl

theorem repr_data_2 (n : Nat) (hl : 10 ≤ n) (h : n < 100) :
    (Nat.repr n).data = [Nat.digitChar (n / 10), Nat.digitChar (n % 10)] := by
  show (Nat.toDigitsCore 10 (n + 1) n []).asString.data = _
  rw [toDigitsCore_step _ _ _ hl (by omega)]
  rw [toDigitsCore_lt10 _ _ _ (by omega) (by omega)]
  rfl

theorem repr_data_3 (n : Nat) (hl : 100 ≤ n) (h : n < 1000) :
    (Nat.repr n).data =
      [Nat.digitChar (n / 100), Nat.digitChar (n / 10 % 10), Nat.digitChar (n % 10)] := by
  show (Nat.toDigitsCore 10 (n + 1) n []).asString.data = _
  rw [toDigitsCore_step _ _ _ (by omega) (by omega)]
  rw [toDigitsCore_step _ _ _ (by omega) (by omega)]
  rw [toDigitsCore_lt10 _ _ _ (by omega) (by omega)]
  simp only [Nat.div_div_eq_div_mul]
  simp only [show (10 * 10 : Nat) = 100 from by norm_num]
  rfl

theorem repr_data_4 (n : Nat) (hl : 1000 ≤ n) (h : n < 10000) :
    (Nat.repr n).data =
      [Nat.digitChar (n / 1000), Nat.digitChar (n / 100 % 10),
       Nat.digitChar (n / 10 % 10), Nat.digitChar (n % 10)] := by
  show (Nat.toDigitsCore 10 (n + 1) n []).asString.data = _
  rw [toDigitsCore_step _ _ _ (by omega) (by omega)]
  rw [toDigitsCore_step _ _ _ (by omega) (by omega)]
  rw [toDigitsCore_step _ _ _ (by omega) (by omega)]
  rw [toDigitsCore_lt10 _ _ _ (by omega) (by omega)]
  simp only [Nat.div_div_eq_div_mul]
  simp only [show (10 * 10 : Nat) = 100 from by norm_num,
    show (10 * 10 * 10 : Nat) = 1000 from by norm_num,
    show (10 * (10 * 10) : Nat) = 1000 from by norm_num]
  rfl

theorem rustPad4_data_eq (n : Nat) :
    (rustPad4 n).data =
      List.replicate (4 - (Nat.repr n).length) '0' ++ (Nat.repr n).data := by
  by_cases hc : (Nat.repr n).length < 4
  · simp [rustPad4, hc]
  · have h4 : 4 - (Nat.repr n).length = 0 := by omega
    simp [rustPad4, hc, h4]

theorem rustPad4_ne_nl (n : Nat) : '\n' ∉ (rustPad4 n).data := by
  rw [rustPad4_data_eq]
  intro hmem
  rcases List.mem_append.mp hmem with h | h
  · have := List.eq_of_mem_replicate h
    exact absurd this (by decide)
  · exact repr_ne_nl n _ h rfl

theorem rustPad4_data (n : Nat) (h : n < 10000) : (rustPad4 n).data = digitsChars4 n := by
  have hz : ('0' : Char) = Char.ofNat 48 := by decide
  rcases Nat.lt_or_ge n 10 with h1 | h1
  · have hr := repr_data_1 n h1
    have hlen : (Nat.repr n).length = 1 := by simp [String.length, hr]
    rw [rustPad4_data_eq, hr, hlen]
    show ['0', '0', '0', Nat.digitChar n] = _
    rw [digitChar_eq n h1, digitsChars4, hz]
    rw [show n / 1000 % 10 = 0 from by omega, show n / 100 % 10 = 0 from by omega,
        show n / 10 % 10 = 0 from by omega, show n % 10 = n from by omega]
  · rcases Nat.lt_or_ge n 100 with h2 | h2
    · have hr := repr_data_2 n h1 h2
      have hlen : (Nat.repr n).length = 2 := by simp [String.length, hr]
      rw [rustPad4_data_eq, hr, hlen]
      show ['0', '0', Nat.digitChar (n / 10), Nat.digitChar (n % 10)] = _
      rw [digitChar_eq _ (by omega), digitChar_eq _ (by omega), digitsChars4, hz]
      rw [show n / 1000 % 10 = 0 from by omega, show n / 100 % 10 = 0 from by omega,
          show n / 10 % 10 = n / 10 from by omega]
    · rcases Nat.lt_or_ge n 1000 with h3 | h3
      · have hr := repr_data_3 n h2 h3
        have hlen : (Nat.repr n).length = 3 := by simp [String.length, hr]
        rw [rustPad4_data_eq, hr, hlen]
        show ['0', Nat.digitChar (n / 100), Nat.digitChar (n / 10 % 10),
              Nat.digitChar (n % 10)] = _
        rw [digitChar_eq _ (by omega), digitChar_eq _ (by omega), digitChar_eq _ (by omega),
            digitsChars4, hz]
        rw [show n / 1000 % 10 = 0 from by omega, show n / 100 % 10 = n / 100 from by omega]
      · have hr := repr_data_4 n h3 h
        have hlen : (Nat.repr n).length = 4 := by simp [String.length, hr]
        rw [rustPad4_data_eq, hr, hlen]
        show [Nat.digitChar (n / 1000), Nat.digitChar (n / 100 % 10),
              Nat.digitChar (n / 10 % 10), Nat.digitChar (n % 10)] = _
        rw [digitChar_eq _ (by omega), digitChar_eq _ (by omega), digitChar_eq _ (by omega),
            digitChar_eq _ (by omega), digitsChars4]
        rw [show n / 1000 % 10 = n / 1000 from by omega]

theorem digitsChars4_lex (n m : Nat) (hnm : n < m) (hm : m < 10000) :
    List.Lex (· < ·) (digitsChars4 n) (digitsChars4 m) := by
  show List.Lex (· < ·)
    (Char.ofNat (48 + n / 1000 % 10) :: [Char.ofNat (48 + n / 100 % 10),
      Char.ofNat (48 + n / 10 % 10), Char.ofNat (48 + n % 10)])
    (Char.ofNat (48 + m / 1000 % 10) :: [Char.ofNat (48 + m / 100 % 10),
      Char.ofNat (48 + m / 10 % 10), Char.ofNat (48 + m % 10)])
  by_cases h3 : n / 1000 % 10 = m / 1000 % 10
  · rw [h3]
    apply List.Lex.cons
    by_cases h2 : n / 100 % 10 = m / 100 % 10
    · rw [h2]
      apply List.Lex.cons
      by_cases h1 : n / 10 % 10 = m / 10 % 10
      · rw [h1]
        apply List.Lex.cons
        exact List.Lex.rel (charLt_of_lt _ (by omega) _ (by omega) (by omega))
      · exact List.Lex.rel (charLt_of_lt _ (by omega) _ (by omega) (by omega))
    · exact List.Lex.rel (charLt_of_lt _ (by omega) _ (by omega) (by omega))
  · exact List.Lex.rel (charLt_of_lt _ (by omega) _ (by omega) (by omega))

theorem lexAppendLeft (c : List Char) {l₁ l₂ : List Char} (h : List.Lex (· < ·) l₁ l₂) :
    List.Lex (· < ·) (c ++ l₁) (c ++ l₂) := by
  induction c with
  | nil => exact h
  | cons x xs ih => exact List.Lex.cons ih

theorem lexAppendOfLengthEq {a b : List Char} (s t : List Char) (hlen : a.length = b.length)
    (h : List.Lex (· < ·) a b) : List.Lex (· < ·) (a ++ s) (b ++ t) := by
  induction h with
  | nil => simp at hlen
  | rel hr => exact List.Lex.rel hr
  | cons _ ih => exact List.Lex.cons (ih (by simpa using hlen))

theorem pageFileName_data (n : Nat) :
    (pageFileName n).data = "page_".data ++ ((rustPad4 n).data ++ ".png".data) := by
  show ("page_" ++ rustPad4 n ++ ".png").data = _
  simp [String.data_append]

theorem pageFileName_lt (i j : Nat) (hij : i < j) (hj : j < 10000) :
    pageFileName i < pageFileName j := by
  rw [String.lt_iff_toList_lt]
  show List.Lex (· < ·) (pageFileName i).data (pageFileName j).data
  rw [pageFileName_data i, pageFileName_data j, rustPad4_data i (by omega), rustPad4_data j hj]
  apply lexAppendLeft
  exact lexAppendOfLengthEq _ _ (by simp [digitsChars4]) (digitsChars4_lex i j hij hj)

theorem pageFileName_ne_nl (n : Nat) : '\n' ∉ (pageFileName n).data := by
  rw [pageFileName_data]
  intro hmem
  rcases List.mem_append.mp hmem with h | h
  · revert h; decide
  · rcases List.mem_append.mp h with h | h
    · exact rustPad4_ne_nl n h
    · revert h; decide

theorem imagePath_ne_nl (dir : String) (hdir : '\n' ∉ dir.data) (n : Nat) :
    '\n' ∉ (imagePath dir n).data := by
  show '\n' ∉ (dir ++ "/" ++ pageFileName n).data
  simp only [String.data_append]
  intro hmem
  rcases List.mem_append.mp hmem with h | h
  · rcases List.mem_append.mp h with h | h
    · exact hdir h
    · revert h; decide
  · exact pageFileName_ne_nl n h

/-! Line structure of the manifest text. -/

theorem splitNl_ne_nil : ∀ s : List Char, splitNl s ≠ []
  | [] => by simp [splitNl]
  | c :: cs => by
    show (match splitNl cs with
      | [] => [[]]
      | l :: ls => if c = '\n' then [] :: l :: ls else (c :: l) :: ls) ≠ []
    cases h : splitNl cs with
    | nil => simp
    | cons l ls =>
      by_cases hcn : c = '\n' <;> simp [hcn]

theorem splitNl_line (rest : List Char) :
    ∀ l : List Char, '\n' ∉ l → splitNl (l ++ '\n' :: rest) = l :: splitNl rest
  | [], _ => by
    show (match splitNl rest with
      | [] => [[]]
      | r :: rs => if '\n' = '\n' then [] :: r :: rs else ('\n' :: r) :: rs) = [] :: splitNl rest
    cases h : splitNl rest with
    | nil => exact absurd h (splitNl_ne_nil rest)
    | cons r rs => simp
  | c :: l, hnl => by
    have hcn : c ≠ '\n' := fun h => hnl (by rw [h]; exact List.mem_cons_self _ _)
    have ih := splitNl_line rest l (fun h => hnl (List.mem_cons_of_mem _ h))
    show (match splitNl (l ++ '\n' :: rest) with
      | [] => [[]]
      | r :: rs => if c = '\n' then [] :: r :: rs else (c :: r) :: rs) = _
    rw [ih]
    simp [hcn]

theorem manifestText_data (p : String) (ps : List String) :
    (manifestText (p :: ps)).data = p.data ++ '\n' :: (manifestText ps).data := by
  show ((p ++ "\n") ++ manifestText ps).data = _
  simp [String.data_append]

theorem splitNl_manifestText : ∀ paths : List String, (∀ p ∈ paths, '\n' ∉ p.data) →
    splitNl (manifestText paths).data = paths.map String.data ++ [[]]
  | [], _ => rfl
  | p :: ps, h => by
    have ih := splitNl_manifestText ps (fun q hq => h q (List.mem_cons_of_mem _ hq))
    rw [manifestText_data, splitNl_line _ _ (h p (List.mem_cons_self _ _)), ih]
    rfl

/-! The page loop. -/

theorem processPages_ok (env : Env) :
    ∀ (n i : Nat), (∀ j, i ≤ j → j < i + n → env.pageOk j = true) →
    processPages env i n = (pagePathsFrom env.workdir i n, pageEventsFrom env i n, none)
  | 0, i, _ => by simp [processPages, pagePathsFrom, pageEventsFrom]
  | n + 1, i, h => by
    have hp : env.pageOk i = true := h i (by omega) (by omega)
    have ih := processPages_ok env n (i + 1) (fun j h1 h2 => h j (by omega) (by omega))
    show (if env.pageOk i then _ else _) = _
    rw [if_pos hp, ih]
    rfl

theorem processPages_fail (env : Env) :
    ∀ (n i k : Nat), i ≤ k → k < i + n →
    (∀ j, i ≤ j → j < k → env.pageOk j = true) → env.pageOk k = false →
    processPages env i n =
      (pagePathsFrom env.workdir i (k - i), pageEventsFrom env i (k - i), some k)
  | 0, i, k, hik, hkn, _, _ => by omega
  | n + 1, i, k, hik, hkn, hgood, hbad => by
    by_cases hik2 : i = k
    · subst hik2
      show (if env.pageOk i then _ else _) = _
      rw [if_neg (by simp [hbad])]
      rw [show i - i = 0 from by omega]
      rfl
    · have hp : env.pageOk i = true := hgood i (by omega) (by omega)
      have ih := processPages_fail env n (i + 1) k (by omega) (by omega)
        (fun j h1 h2 => hgood j (by omega) h2) hbad
      show (if env.pageOk i then _ else _) = _
      rw [if_pos hp, ih]
      rw [show k - i = (k - (i + 1)) + 1 from by omega]
      rfl

theorem pagePathsFrom_eq (dir : String) :
    ∀ (n i : Nat), pagePathsFrom dir i n = (List.range n).map (fun k => imagePath dir (i + k + 1))
  | 0, i => by simp [pagePathsFrom]
  | n + 1, i => by
    rw [pagePathsFrom, pagePathsFrom_eq dir n (i + 1), List.range_succ_eq_map,
      List.map_cons, List.map_map]
    refine congrArg₂ _ (by simp) ?_
    have harg : (fun k => imagePath dir (i + 1 + k + 1)) =
        ((fun k => imagePath dir (i + k + 1)) ∘ Nat.succ) :=
      funext fun k => congrArg (imagePath dir) (by omega)
    rw [harg]

theorem pageEventsFrom_paths (env : Env) :
    ∀ (n i : Nat), (pageEventsFrom env i n).filterMap Event.imageWritePath =
      pagePathsFrom env.workdir i n
  | 0, i => rfl
  | n + 1, i => by
    rw [pageEventsFrom, pagePathsFrom, List.filterMap_cons]
    rw [pageEventsFrom_paths env n (i + 1)]
    rfl

theorem pageEventsFrom_shape (env : Env) :
    ∀ (n i : Nat), ∀ e ∈ pageEventsFrom env i n,
      ∃ p j, e = Event.writeImage p (renderedPageImage (env.pageAt j))
  | 0, i => by simp [pageEventsFrom]
  | n + 1, i => by
    intro e he
    rcases List.mem_cons.mp he with h | h
    · exact ⟨_, i, h⟩
    · exact pageEventsFrom_shape env n (i + 1) e h

theorem mem_pageEventsFrom (env : Env) :
    ∀ (n i : Nat), ∀ p ∈ pagePathsFrom env.workdir i n,
      ∃ img, Event.writeImage p img ∈ pageEventsFrom env i n
  | 0, i => by simp [pagePathsFrom]
  | n + 1, i => by
    intro p hp
    rcases List.mem_cons.mp hp with h | h
    · exact ⟨renderedPageImage (env.pageAt i), by rw [h]; exact List.mem_cons_self _ _⟩
    · rcases mem_pageEventsFrom env n (i + 1) p h with ⟨img, hmem⟩
      exact ⟨img, List.mem_cons_of_mem _ hmem⟩

theorem processPages_events_shape (env : Env) :
    ∀ (n i : Nat), ∀ e ∈ (processPages env i n).2.1,
      ∃ p j, e = Event.writeImage p (renderedPageImage (env.pageAt j))
  | 0, i => by simp [processPages]
  | n + 1, i => by
    intro e he
    by_cases hp : env.pageOk i = true
    · replace he : e ∈ Event.writeImage (imagePath env.workdir (i + 1))
          (renderedPageImage (env.pageAt i)) :: (processPages env (i + 1) n).2.1 := by
        simpa [processPages, hp] using he
      rcases List.mem_cons.mp he with h | h
      · exact ⟨_, i, h⟩
      · exact processPages_events_shape env n (i + 1) e h
    · simp [processPages, hp] at he

/-! Shape of the trace, stage by stage. -/

theorem bindEvents_shape (env : Env) :
    ∀ e ∈ bindEvents env, ∃ t b, e = Event.bindAttempt t b := by
  intro e he
  by_cases h : env.bindLocalOk = true
  · rw [bindEvents, if_pos h] at he
    rcases List.mem_cons.mp he with h2 | h2
    · exact ⟨_, _, h2⟩
    · simp at h2
  · rw [bindEvents, if_neg h] at he
    rcases List.mem_cons.mp he with h2 | h2
    · exact ⟨_, _, h2⟩
    · rcases List.mem_cons.mp h2 with h3 | h3
      · exact ⟨_, _, h3⟩
      · simp at h3

theorem run_input_missing (env : Env) (h : env.inputExists = false) :
    run env =
      { trace := [],
        outcome := Outcome.failure (PipelineError.inputNotFound env.input) } := by
  simp [run, h]

theorem run_workspace_failed (env : Env) (hin : env.inputExists = true)
    (hws : env.workspaceOk = false) :
    run env =
      { trace := [],
        outcome := Outcome.failure PipelineError.workspaceCreationFailed } := by
  simp [run, hin, hws]

theorem run_eq_runWorkspace (env : Env) (hin : env.inputExists = true)
    (hws : env.workspaceOk = true) : run env = runWorkspace env := by
  simp [run, hin, hws]

theorem runLoaded_shape (env : Env) (pre : List Event) :
    ∃ mid, (runLoaded env pre).trace = pre ++ mid ++ [Event.removeWorkspace] ∧
      ∀ e ∈ mid, e = Event.loadDocument ∨
        (∃ p j, e = Event.writeImage p (renderedPageImage (env.pageAt j))) ∨
        (∃ doc, env.loaded = some doc ∧
          e = Event.writeManifest (manifestPath env.workdir)
                (processPages env 0 doc.pageCount).1) ∨
        e = Event.invokeOcr "tesseract" (ocrArgs env) := by
  cases hl : env.loaded with
  | none =>
    refine ⟨[], ?_, by simp⟩
    simp [runLoaded, hl]
  | some doc =>
    have hshape := processPages_events_shape env doc.pageCount 0
    rw [runLoaded, hl]
    dsimp only
    rw [runPages]
    cases hpp : (processPages env 0 doc.pageCount).2.2 with
    | some k =>
      refine ⟨Event.loadDocument :: (processPages env 0 doc.pageCount).2.1, by simp, ?_⟩
      intro e he
      rcases List.mem_cons.mp he with h | h
      · exact Or.inl h
      · exact Or.inr (Or.inl (hshape e h))
    | none =>
      dsimp only
      by_cases hman : env.manifestOk = false
      · rw [if_pos hman]
        refine ⟨Event.loadDocument :: (processPages env 0 doc.pageCount).2.1, by simp, ?_⟩
        intro e he
        rcases List.mem_cons.mp he with h | h
        · exact Or.inl h
        · exact Or.inr (Or.inl (hshape e h))
      · rw [if_neg hman]
        refine ⟨Event.loadDocument :: ((processPages env 0 doc.pageCount).2.1 ++
          [Event.writeManifest (manifestPath env.workdir) (processPages env 0 doc.pageCount).1,
           Event.invokeOcr "tesseract" (ocrArgs env)]), ?_, ?_⟩
        · show (afterOcr env _).trace = _
          rw [afterOcr]
          simp
        · intro e he
          rcases List.mem_cons.mp he with h | h
          · exact Or.inl h
          · rcases List.mem_append.mp h with h | h
            · exact Or.inr (Or.inl (hshape e h))
            · rcases List.mem_cons.mp h with h | h
              · exact Or.inr (Or.inr (Or.inl ⟨doc, rfl, h⟩))
              · rcases List.mem_cons.mp h with h | h
                · exact Or.inr (Or.inr (Or.inr h))
                · simp at h

theorem runWorkspace_shape (env : Env) :
    ∃ mid, (runWorkspace env).trace =
      Event.createWorkspace :: (bindEvents env ++ mid ++ [Event.removeWorkspace]) ∧
      ∀ e ∈ mid, e = Event.loadDocument ∨
        (∃ p j, e = Event.writeImage p (renderedPageImage (env.pageAt j))) ∨
        (∃ doc, env.loaded = some doc ∧
          e = Event.writeManifest (manifestPath env.workdir)
                (processPages env 0 doc.pageCount).1) ∨
        e = Event.invokeOcr "tesseract" (ocrArgs env) := by
  by_cases hb : engineBound env = false
  · refine ⟨[], ?_, by simp⟩
    simp [runWorkspace, hb]
  · rcases runLoaded_shape env (Event.createWorkspace :: bindEvents env) with ⟨mid, htr, hmid⟩
    refine ⟨mid, ?_, hmid⟩
    have hrw : runWorkspace env = runLoaded env (Event.createWorkspace :: bindEvents env) := by
      rw [runWorkspace]
      simp [hb]
    rw [hrw, htr]
    simp

theorem run_good (env : Env) (doc : PdfDocument) (hin : env.inputExists = true)
    (hws : env.workspaceOk = true) (hbind : engineBound env = true)
    (hload : env.loaded = some doc)
    (hpages : ∀ i, i < doc.pageCount → env.pageOk i = true)
    (hman : env.manifestOk = true) :
    run env =
      { trace := Event.createWorkspace :: (bindEvents env ++ Event.loadDocument ::
          (pageEventsFrom env 0 doc.pageCount ++
            [Event.writeManifest (manifestPath env.workdir)
               (pagePathsFrom env.workdir 0 doc.pageCount),
             Event.invokeOcr "tesseract" (ocrArgs env), Event.removeWorkspace])),
        outcome := ocrOutcome env } := by
  have hpp := processPages_ok env doc.pageCount 0 (fun j h1 h2 => hpages j (by omega))
  rw [run_eq_runWorkspace env hin hws]
  have hrw : runWorkspace env = runLoaded env (Event.createWorkspace :: bindEvents env) := by
    rw [runWorkspace]
    simp [hbind]
  rw [hrw, runLoaded, hload]
  dsimp only
  rw [runPages, hpp]
  dsimp only
  rw [if_neg (by simp [hman])]
  rw [afterOcr]
  simp

theorem run_pagefail (env : Env) (doc : PdfDocument) (k : Nat)
    (hin : env.inputExists = true) (hws : env.workspaceOk = true)
    (hbind : engineBound env = true) (hload : env.loaded = some doc)
    (hk : k < doc.pageCount) (hgood : ∀ j, j < k → env.pageOk j = true)
    (hbad : env.pageOk k = false) :
    run env =
      { trace := Event.createWorkspace :: (bindEvents env ++ Event.loadDocument ::
          (pageEventsFrom env 0 k ++ [Event.removeWorkspace])),
        outcome := Outcome.failure (PipelineError.pageProcessingFailed k) } := by
  have hpp := processPages_fail env doc.pageCount 0 k (by omega) (by omega)
      (fun j h1 h2 => hgood j h2) hbad
  rw [Nat.sub_zero] at hpp
  rw [run_eq_runWorkspace env hin hws]
  have hrw : runWorkspace env = runLoaded env (Event.createWorkspace :: bindEvents env) := by
    rw [runWorkspace]
    simp [hbind]
  rw [hrw, runLoaded, hload]
  dsimp only
  rw [runPages, hpp]
  simp

theorem bindEvents_no_image (env : Env) :
    (bindEvents env).filterMap Event.imageWritePath = [] := by
  by_cases h : env.bindLocalOk = true <;>
    simp [bindEvents, h, Event.imageWritePath]

/-! The claims. -/

/-- C4: for every input path that does not exist, the run fails immediately
with the input-not-found error, and its trace is empty: no workspace is
created, no rendering-engine binding is attempted, and no file is written. -/
theorem spec_c4_input_not_found (env : Env) (h : env.inputExists = false) :
    (run env).outcome = Outcome.failure (PipelineError.inputNotFound env.input) ∧
    (run env).trace = [] := by
  rw [run_input_missing env h]
  exact ⟨rfl, rfl⟩

/-- C4 witness: a concrete environment whose input file is missing. -/
theorem spec_c4_witness :
    (run { goodEnv 1 with inputExists := false }).outcome =
      Outcome.failure (PipelineError.inputNotFound "in.pdf") ∧
    (run { goodEnv 1 with inputExists := false }).trace = [] :=
  spec_c4_input_not_found { goodEnv 1 with inputExists := false } rfl

/-- C9: once the temporary workspace has been created, every exit path of the
run, whatever the outcome, ends by removing the workspace directory and its
contents: the trace starts with the creation and its final event is the
removal. -/
theorem spec_c9_workspace_cleanup (env : Env) (hin : env.inputExists = true)
    (hws : env.workspaceOk = true) :
    ∃ mid, (run env).trace = Event.createWorkspace :: (mid ++ [Event.removeWorkspace]) := by
  rw [run_eq_runWorkspace env hin hws]
  rcases runWorkspace_shape env with ⟨mid, htr, _⟩
  refine ⟨bindEvents env ++ mid, ?_⟩
  rw [htr]

/-- C9 witness: the cleanup shape at a concrete successful environment. -/
theorem spec_c9_witness :
    ∃ mid, (run (goodEnv 1)).trace =
      Event.createWorkspace :: (mid ++ [Event.removeWorkspace]) :=
  spec_c9_workspace_cleanup (goodEnv 1) rfl rfl

/-- C6 counterexample: the file name of page 10000 sorts lexicographically
before the file name of page 9999, so file names do not sort in page order
for every page index. -/
theorem spec_c6_counterexample :
    9999 < 10000 ∧ pageFileName 10000 < pageFileName 9999 ∧
    ¬ pageFileName 9999 < pageFileName 10000 := by
  refine ⟨by norm_num, ?_, ?_⟩
  · rw [String.lt_iff_toList_lt]
    decide
  · rw [String.lt_iff_toList_lt]
    decide

/-- C6 (amended): page 1 yields the file name page_0001.png, and for page
indices up to 9999 (where the zero padding to four digits is not exceeded)
the file names sort lexicographically in the same order as the page
indices. -/
theorem spec_c6_page_names :
    pageFileName 1 = "page_0001.png" ∧
    ∀ i j : Nat, 1 ≤ i → i < j → j ≤ 9999 → pageFileName i < pageFileName j := by
  refine ⟨by decide, fun i j h1 hij hj => pageFileName_lt i j hij (by omega)⟩

/-- C6 witness: the order of the first two page file names. -/
theorem spec_c6_witness : pageFileName 1 < pageFileName 2 :=
  spec_c6_page_names.2 1 2 (by decide) (by decide) (by decide)

/-- C3 counterexample: two runs that differ only in the non-zero exit status
of the OCR child process produce identical results, so the failure carries no
exit code. -/
theorem spec_c3_counterexample :
    run (envWithExit 2) = run (envWithExit 3) ∧
    (envWithExit 2).ocrExitCode ≠ (envWithExit 3).ocrExitCode := by
  exact ⟨rfl, by decide⟩

/-- C3 (amended): when the OCR child process is spawned but exits with a
non-zero status the run fails with the ocrNonZeroExit error, and when it
cannot be spawned the run fails with the distinct ocrSpawnFailed error, whose
source-fixed message also differs; the non-zero-exit failure is the same
value for every exit status and carries no exit code. -/
theorem spec_c3_ocr_error (env : Env) (doc : PdfDocument)
    (hin : env.inputExists = true) (hws : env.workspaceOk = true)
    (hbind : engineBound env = true) (hload : env.loaded = some doc)
    (hpages : ∀ i, i < doc.pageCount → env.pageOk i = true)
    (hman : env.manifestOk = true) :
    ((env.ocrSpawnOk = false →
        (run env).outcome = Outcome.failure PipelineError.ocrSpawnFailed) ∧
     (env.ocrSpawnOk = true → env.ocrExitCode ≠ 0 →
        (run env).outcome = Outcome.failure PipelineError.ocrNonZeroExit)) ∧
    PipelineError.ocrSpawnFailed ≠ PipelineError.ocrNonZeroExit ∧
    sourceMessage PipelineError.ocrSpawnFailed ≠
      sourceMessage PipelineError.ocrNonZeroExit := by
  rw [run_good env doc hin hws hbind hload hpages hman]
  refine ⟨⟨?_, ?_⟩, by decide, by decide⟩
  · intro hs
    simp [ocrOutcome, hs]
  · intro hs he
    simp [ocrOutcome, hs, he]

/-- C3 witness: the two failure modes at a concrete environment. -/
theorem spec_c3_witness :
    (((goodEnv 1).ocrSpawnOk = false →
        (run (goodEnv 1)).outcome = Outcome.failure PipelineError.ocrSpawnFailed) ∧
     ((goodEnv 1).ocrSpawnOk = true → (goodEnv 1).ocrExitCode ≠ 0 →
        (run (goodEnv 1)).outcome = Outcome.failure PipelineError.ocrNonZeroExit)) ∧
    PipelineError.ocrSpawnFailed ≠ PipelineError.ocrNonZeroExit ∧
    sourceMessage PipelineError.ocrSpawnFailed ≠
      sourceMessage PipelineError.ocrNonZeroExit :=
  spec_c3_ocr_error (goodEnv 1) { pageCount := 1 } rfl rfl rfl rfl (by decide) rfl

/-- C2: every image artifact the run writes has width 2480, height 3508 and
3 color channels, for every environment, hence for every source page size or
orientation. -/
theorem spec_c2_raster_fixed (env : Env) (p : String) (img : RasterImage)
    (h : Event.writeImage p img ∈ (run env).trace) :
    img.width = 2480 ∧ img.height = 3508 ∧ img.channels = 3 := by
  by_cases hin : env.inputExists = true
  · by_cases hws : env.workspaceOk = true
    · rw [run_eq_runWorkspace env hin hws] at h
      rcases runWorkspace_shape env with ⟨mid, htr, hmid⟩
      rw [htr] at h
      rcases List.mem_cons.mp h with h | h
      · exact absurd h (by simp)
      · rcases List.mem_append.mp h with h | h
        · rcases List.mem_append.mp h with h | h
          · rcases bindEvents_shape env _ h with ⟨t, b, hb⟩
            exact absurd hb (by simp)
          · rcases hmid _ h with h2 | h2 | h2 | h2
            · exact absurd h2 (by simp)
            · rcases h2 with ⟨p2, j, heq⟩
              have himg : img = renderedPageImage (env.pageAt j) := by
                injection heq with heq1 heq2
              rw [himg]
              exact ⟨rfl, rfl, rfl⟩
            · rcases h2 with ⟨doc2, hdoc2, heq⟩
              exact absurd heq (by simp)
            · exact absurd h2 (by simp)
        · rcases List.mem_singleton.mp h with h
          exact absurd h (by simp)
    · rw [run_workspace_failed env hin (by simpa using hws)] at h
      simp at h
  · rw [run_input_missing env (by simpa using hin)] at h
    simp at h

/-- C2 witness: the artifact written for the single page of a concrete run
has the fixed dimensions and channel count. -/
theorem spec_c2_witness :
    (renderedPageImage ((goodEnv 1).pageAt 0)).width = 2480 ∧
    (renderedPageImage ((goodEnv 1).pageAt 0)).height = 3508 ∧
    (renderedPageImage ((goodEnv 1).pageAt 0)).channels = 3 :=
  spec_c2_raster_fixed (goodEnv 1) (imagePath "/tmp/t" 1)
    (renderedPageImage ((goodEnv 1).pageAt 0)) (by decide)

/-- C10: a successfully loaded 0-page document still produces a manifest
write with an empty line list (whose text is the empty string), still leads
to a tesseract invocation, and the outcome of the run is exactly the outcome
of the OCR step: success precisely when the child exits with status 0. -/
theorem spec_c10_zero_pages (env : Env) (hin : env.inputExists = true)
    (hws : env.workspaceOk = true) (hbind : engineBound env = true)
    (hload : env.loaded = some { pageCount := 0 }) (hman : env.manifestOk = true) :
    Event.writeManifest (manifestPath env.workdir) [] ∈ (run env).trace ∧
    manifestText [] = "" ∧
    Event.invokeOcr "tesseract" (ocrArgs env) ∈ (run env).trace ∧
    (run env).outcome = ocrOutcome env ∧
    (env.ocrSpawnOk = true → ((run env).outcome = Outcome.success ↔ env.ocrExitCode = 0)) := by
  have hg := run_good env { pageCount := 0 } hin hws hbind hload
    (fun i hi => absurd hi (Nat.not_lt_zero i)) hman
  rw [hg]
  refine ⟨?_, rfl, ?_, rfl, ?_⟩
  · simp [pageEventsFrom, pagePathsFrom]
  · simp [pageEventsFrom]
  · intro hs
    constructor
    · intro ho
      by_contra hne
      rw [show ocrOutcome env = Outcome.failure PipelineError.ocrNonZeroExit from by
        simp [ocrOutcome, hs, hne]] at ho
      exact Outcome.noConfusion ho
    · intro he
      simp [ocrOutcome, hs, he]

/-- C10 witness: the 0-page behavior at a concrete environment. -/
theorem spec_c10_witness :
    Event.writeManifest (manifestPath "/tmp/t") [] ∈ (run (goodEnv 0)).trace ∧
    manifestText [] = "" ∧
    Event.invokeOcr "tesseract" (ocrArgs (goodEnv 0)) ∈ (run (goodEnv 0)).trace ∧
    (run (goodEnv 0)).outcome = ocrOutcome (goodEnv 0) ∧
    ((goodEnv 0).ocrSpawnOk = true →
      ((run (goodEnv 0)).outcome = Outcome.success ↔ (goodEnv 0).ocrExitCode = 0)) :=
  spec_c10_zero_pages (goodEnv 0) rfl rfl rfl rfl rfl

/-- C5: if processing of 0-based page k fails while all earlier pages
succeed, the run fails with the page-processing error at k, exactly the
pages before k have image artifacts written, no manifest is ever written and
the OCR child is never invoked. -/
theorem spec_c5_page_abort (env : Env) (doc : PdfDocument) (k : Nat)
    (hin : env.inputExists = true) (hws : env.workspaceOk = true)
    (hbind : engineBound env = true) (hload : env.loaded = some doc)
    (hk : k < doc.pageCount) (hgood : ∀ j, j < k → env.pageOk j = true)
    (hbad : env.pageOk k = false) :
    (run env).outcome = Outcome.failure (PipelineError.pageProcessingFailed k) ∧
    (run env).trace.filterMap Event.imageWritePath =
      (List.range k).map (fun i => imagePath env.workdir (i + 1)) ∧
    (∀ q ls, Event.writeManifest q ls ∉ (run env).trace) ∧
    (∀ x as, Event.invokeOcr x as ∉ (run env).trace) := by
  rw [run_pagefail env doc k hin hws hbind hload hk hgood hbad]
  refine ⟨rfl, ?_, ?_, ?_⟩
  · rw [show (Event.createWorkspace :: (bindEvents env ++ Event.loadDocument ::
        (pageEventsFrom env 0 k ++ [Event.removeWorkspace]))).filterMap
          Event.imageWritePath =
        (bindEvents env).filterMap Event.imageWritePath ++
          (pageEventsFrom env 0 k).filterMap Event.imageWritePath from by
      simp [List.filterMap_cons, List.filterMap_append, Event.imageWritePath]]
    rw [bindEvents_no_image, pageEventsFrom_paths, pagePathsFrom_eq]
    simp
  · intro q ls hmem
    rcases List.mem_cons.mp hmem with h | h
    · exact Event.noConfusion h
    · rcases List.mem_append.mp h with h | h
      · rcases bindEvents_shape env _ h with ⟨t, b, hb⟩
        exact Event.noConfusion hb
      · rcases List.mem_cons.mp h with h | h
        · exact Event.noConfusion h
        · rcases List.mem_append.mp h with h | h
          · rcases pageEventsFrom_shape env k 0 _ h with ⟨p, j, hpe⟩
            exact Event.noConfusion hpe
          · rcases List.mem_singleton.mp h with h
            exact Event.noConfusion h
  · intro x as hmem
    rcases List.mem_cons.mp hmem with h | h
    · exact Event.noConfusion h
    · rcases List.mem_append.mp h with h | h
      · rcases bindEvents_shape env _ h with ⟨t, b, hb⟩
        exact Event.noConfusion hb
      · rcases List.mem_cons.mp h with h | h
        · exact Event.noConfusion h
        · rcases List.mem_append.mp h with h | h
          · rcases pageEventsFrom_shape env k 0 _ h with ⟨p, j, hpe⟩
            exact Event.noConfusion hpe
          · rcases List.mem_singleton.mp h with h
            exact Event.noConfusion h

/-- C5 witness: a 3-page document whose second page fails to render. -/
theorem spec_c5_witness :
    (run { goodEnv 3 with renderOk := fun i => ! (i == 1) }).outcome =
      Outcome.failure (PipelineError.pageProcessingFailed 1) ∧
    (run { goodEnv 3 with renderOk := fun i => ! (i == 1) }).trace.filterMap
        Event.imageWritePath =
      (List.range 1).map (fun i => imagePath "/tmp/t" (i + 1)) ∧
    (∀ q ls, Event.writeManifest q ls ∉
      (run { goodEnv 3 with renderOk := fun i => ! (i == 1) }).trace) ∧
    (∀ x as, Event.invokeOcr x as ∉
      (run { goodEnv 3 with renderOk := fun i => ! (i == 1) }).trace) :=
  spec_c5_page_abort { goodEnv 3 with renderOk := fun i => ! (i == 1) }
    { pageCount := 3 } 1 rfl rfl rfl rfl (by decide) (by decide) (by decide)

/-- C1: for an N-page document successfully processed up to the OCR step,
the trace contains one manifest write whose line list has exactly N entries,
entry i being the image path of page i + 1 (strictly increasing page-index
order), every listed path having had its image artifact written earlier in
the trace, no other manifest write exists, and the manifest text splits at
newlines into exactly those N lines, each terminated by exactly one line
ending, with nothing after the last one. -/
theorem spec_c1_manifest (env : Env) (doc : PdfDocument)
    (hin : env.inputExists = true) (hws : env.workspaceOk = true)
    (hbind : engineBound env = true) (hload : env.loaded = some doc)
    (hpages : ∀ i, i < doc.pageCount → env.pageOk i = true)
    (hman : env.manifestOk = true) (hdir : '\n' ∉ env.workdir.data) :
    ∃ lines pre post,
      (run env).trace =
        pre ++ Event.writeManifest (manifestPath env.workdir) lines :: post ∧
      lines = (List.range doc.pageCount).map (fun i => imagePath env.workdir (i + 1)) ∧
      lines.length = doc.pageCount ∧
      (∀ p ∈ lines, ∃ img, Event.writeImage p img ∈ pre) ∧
      (∀ q ls, Event.writeManifest q ls ∉ pre) ∧
      (∀ q ls, Event.writeManifest q ls ∉ post) ∧
      splitNl (manifestText lines).data = lines.map String.data ++ [[]] := by
  refine ⟨pagePathsFrom env.workdir 0 doc.pageCount,
    Event.createWorkspace :: (bindEvents env ++ Event.loadDocument ::
      pageEventsFrom env 0 doc.pageCount),
    [Event.invokeOcr "tesseract" (ocrArgs env), Event.removeWorkspace],
    ?_, ?_, ?_, ?_, ?_, ?_, ?_⟩
  · rw [run_good env doc hin hws hbind hload hpages hman]
    simp
  · rw [pagePathsFrom_eq]
    simp
  · rw [pagePathsFrom_eq]
    simp
  · intro p hp
    rcases mem_pageEventsFrom env doc.pageCount 0 p hp with ⟨img, hm⟩
    refine ⟨img, ?_⟩
    simp [List.mem_cons, List.mem_append, hm]
  · intro q ls hmem
    rcases List.mem_cons.mp hmem with h | h
    · exact Event.noConfusion h
    · rcases List.mem_append.mp h with h | h
      · rcases bindEvents_shape env _ h with ⟨t, b, hb⟩
        exact Event.noConfusion hb
      · rcases List.mem_cons.mp h with h | h
        · exact Event.noConfusion h
        · rcases pageEventsFrom_shape env doc.pageCount 0 _ h with ⟨p2, j, hpe⟩
          exact Event.noConfusion hpe
  · intro q ls hmem
    rcases List.mem_cons.mp hmem with h | h
    · exact Event.noConfusion h
    · rcases List.mem_singleton.mp h with h
      exact Event.noConfusion h
  · refine splitNl_manifestText _ ?_
    intro p hp
    rw [pagePathsFrom_eq] at hp
    rcases List.mem_map.mp hp with ⟨i, hi, hip⟩
    rw [← hip]
    exact imagePath_ne_nl env.workdir hdir _

/-- C1 witness: the manifest of a concrete 2-page run. -/
theorem spec_c1_witness :
    ∃ lines pre post,
      (run (goodEnv 2)).trace =
        pre ++ Event.writeManifest (manifestPath "/tmp/t") lines :: post ∧
      lines = (List.range 2).map (fun i => imagePath "/tmp/t" (i + 1)) ∧
      lines.length = 2 ∧
      (∀ p ∈ lines, ∃ img, Event.writeImage p img ∈ pre) ∧
      (∀ q ls, Event.writeManifest q ls ∉ pre) ∧
      (∀ q ls, Event.writeManifest q ls ∉ post) ∧
      splitNl (manifestText lines).data = lines.map String.data ++ [[]] :=
  spec_c1_manifest (goodEnv 2) { pageCount := 2 } rfl rfl rfl rfl (by decide) rfl (by decide)

/-- C7: the engine binding tries the local library first; the system library
is attempted exactly when the local attempt fails; and when both attempts
fail the run stops with the engine-unavailable error before any document is
loaded. -/
theorem spec_c7_engine_binding (env : Env) (hin : env.inputExists = true)
    (hws : env.workspaceOk = true) :
    (env.bindLocalOk = true →
      Event.bindAttempt BindTarget.localLib true ∈ (run env).trace ∧
      ∀ b, Event.bindAttempt BindTarget.systemLib b ∉ (run env).trace) ∧
    (env.bindLocalOk = false →
      Event.bindAttempt BindTarget.localLib false ∈ (run env).trace ∧
      Event.bindAttempt BindTarget.systemLib env.bindSystemOk ∈ (run env).trace) ∧
    (env.bindLocalOk = false → env.bindSystemOk = false →
      (run env).outcome = Outcome.failure PipelineError.renderingEngineUnavailable ∧
      Event.loadDocument ∉ (run env).trace) := by
  rw [run_eq_runWorkspace env hin hws]
  rcases runWorkspace_shape env with ⟨mid, htr, hmid⟩
  refine ⟨?_, ?_, ?_⟩
  · intro hl
    constructor
    · rw [htr]
      simp [bindEvents, hl]
    · intro b hmem
      rw [htr] at hmem
      rcases List.mem_cons.mp hmem with h | h
      · exact Event.noConfusion h
      · rcases List.mem_append.mp h with h | h
        · rcases List.mem_append.mp h with h | h
          · rw [bindEvents, if_pos hl] at h
            rcases List.mem_singleton.mp h with h
            injection h with h1 h2
            exact BindTarget.noConfusion h1
          · rcases hmid _ h with h2 | h2 | h2 | h2
            · exact Event.noConfusion h2
            · rcases h2 with ⟨p, j, h2⟩
              exact Event.noConfusion h2
            · rcases h2 with ⟨d, hd, h2⟩
              exact Event.noConfusion h2
            · exact Event.noConfusion h2
        · rcases List.mem_singleton.mp h with h
          exact Event.noConfusion h
  · intro hl
    constructor
    · rw [htr]
      simp [bindEvents, hl]
    · rw [htr]
      simp [bindEvents, hl]
  · intro hl hs
    have hb : engineBound env = false := by simp [engineBound, hl, hs]
    have hrw : runWorkspace env =
        { trace := Event.createWorkspace :: (bindEvents env ++ [Event.removeWorkspace]),
          outcome := Outcome.failure PipelineError.renderingEngineUnavailable } := by
      rw [runWorkspace]
      simp [hb]
    rw [hrw]
    refine ⟨rfl, ?_⟩
    intro hmem
    rcases List.mem_cons.mp hmem with h | h
    · exact Event.noConfusion h
    · rcases List.mem_append.mp h with h | h
      · rcases bindEvents_shape env _ h with ⟨t, b, hb2⟩
        exact Event.noConfusion hb2
      · rcases List.mem_singleton.mp h with h
        exact Event.noConfusion h

/-- C7 witness: the binding behavior at a concrete environment whose local
library binds. -/
theorem spec_c7_witness :
    ((goodEnv 1).bindLocalOk = true →
      Event.bindAttempt BindTarget.localLib true ∈ (run (goodEnv 1)).trace ∧
      ∀ b, Event.bindAttempt BindTarget.systemLib b ∉ (run (goodEnv 1)).trace) ∧
    ((goodEnv 1).bindLocalOk = false →
      Event.bindAttempt BindTarget.localLib false ∈ (run (goodEnv 1)).trace ∧
      Event.bindAttempt BindTarget.systemLib (goodEnv 1).bindSystemOk ∈
        (run (goodEnv 1)).trace) ∧
    ((goodEnv 1).bindLocalOk = false → (goodEnv 1).bindSystemOk = false →
      (run (goodEnv 1)).outcome =
        Outcome.failure PipelineError.renderingEngineUnavailable ∧
      Event.loadDocument ∉ (run (goodEnv 1)).trace) :=
  spec_c7_engine_binding (goodEnv 1) rfl rfl

/-- C8: whenever the run invokes the OCR child process, the executable is
tesseract and the arguments are exactly the manifest path, the output path,
the flag -l, the caller-supplied language verbatim, and the format selector
pdf; and every run that reaches the OCR step performs such an invocation. -/
theorem spec_c8_ocr_args (env : Env) :
    (∀ x as, Event.invokeOcr x as ∈ (run env).trace →
      x = "tesseract" ∧
      as = [manifestPath env.workdir, env.output, "-l", env.lang, "pdf"]) ∧
    (∀ doc, env.inputExists = true → env.workspaceOk = true → engineBound env = true →
      env.loaded = some doc → (∀ i, i < doc.pageCount → env.pageOk i = true) →
      env.manifestOk = true →
      Event.invokeOcr "tesseract"
        [manifestPath env.workdir, env.output, "-l", env.lang, "pdf"] ∈
        (run env).trace) := by
  constructor
  · intro x as hmem
    by_cases hin : env.inputExists = true
    · by_cases hws : env.workspaceOk = true
      · rw [run_eq_runWorkspace env hin hws] at hmem
        rcases runWorkspace_shape env with ⟨mid, htr, hmid⟩
        rw [htr] at hmem
        rcases List.mem_cons.mp hmem with h | h
        · exact Event.noConfusion h
        · rcases List.mem_append.mp h with h | h
          · rcases List.mem_append.mp h with h | h
            · rcases bindEvents_shape env _ h with ⟨t, b, hb⟩
              exact Event.noConfusion hb
            · rcases hmid _ h with h2 | h2 | h2 | h2
              · exact Event.noConfusion h2
              · rcases h2 with ⟨p, j, h2⟩
                exact Event.noConfusion h2
              · rcases h2 with ⟨d, hd, h2⟩
                exact Event.noConfusion h2
              · injection h2 with h3 h4
                exact ⟨h3, h4⟩
          · rcases List.mem_singleton.mp h with h
            exact Event.noConfusion h
      · rw [run_workspace_failed env hin (by simpa using hws)] at hmem
        simp at hmem
    · rw [run_input_missing env (by simpa using hin)] at hmem
      simp at hmem
  · intro doc hin hws hbind hload hpages hman
    rw [run_good env doc hin hws hbind hload hpages hman]
    simp [ocrArgs]

/-- C8 witness: the tesseract invocation of a concrete run. -/
theorem spec_c8_witness :
    Event.invokeOcr "tesseract"
      [manifestPath "/tmp/t", "out.pdf", "-l", "eng", "pdf"] ∈
      (run (goodEnv 1)).trace :=
  (spec_c8_ocr_args (goodEnv 1)).2 { pageCount := 1 } rfl rfl rfl rfl (by decide) rfl

end PdfOcr
